import Mathlib

/-!
Verification of the chase betting engine (`chase_watch.py`, `safe_api.py`).

Monetary values are modelled as exact rationals (`ℚ`), following the spec's
requirement of exact decimal arithmetic; the Python `Decimal` constants
(`"0.01"`, `"0.04"`, `"1.50"`, `"1.65"`, `"1.20"`, `"5000"`) are exact
rationals, and the `float(...)` boundary conversions of the source are
modelled as the identity.
-/

namespace ChaseWatch

/-- Constant `MIN_STAKE = Decimal("0.01")` from `chase_watch.py`. -/
def MIN_STAKE : ℚ := 1 / 100

/-- Constant `FIRST_BET_PERCENTAGE = Decimal("0.04")`. -/
def FIRST_BET_PERCENTAGE : ℚ := 4 / 100

/-- Constant `ACCOUNT_CAP = Decimal("5000")`. -/
def ACCOUNT_CAP : ℚ := 5000

/-- Constant `MULTIPLIER_HIGH = Decimal("1.50")` (odds >= 3). -/
def MULTIPLIER_HIGH : ℚ := 150 / 100

/-- Constant `MULTIPLIER_MED = Decimal("1.65")` (2.25 <= odds < 3). -/
def MULTIPLIER_MED : ℚ := 165 / 100

/-- Constant `PROFIT_BUFFER = Decimal("1.20")` (odds < 2.25). -/
def PROFIT_BUFFER : ℚ := 120 / 100

/-- Python builtin `max(a, b)`: returns `a` when the two are equal. -/
def pyMax (a b : ℚ) : ℚ :=
  if b ≤ a then a else b

/-- Python builtin `min(a, b)`: returns `a` when the two are equal. -/
def pyMin (a b : ℚ) : ℚ :=
  if a ≤ b then a else b

theorem pyMax_eq_max (a b : ℚ) : pyMax a b = max a b := by
  unfold pyMax
  rcases le_total a b with h | h
  · rcases eq_or_lt_of_le h with rfl | h2
    · simp
    · rw [if_neg (not_le.mpr h2), max_eq_right h]
  · rw [if_pos h, max_eq_left h]

theorem pyMin_eq_min (a b : ℚ) : pyMin a b = min a b := by
  unfold pyMin
  rcases le_total a b with h | h
  · rw [if_pos h, min_eq_left h]
  · rcases eq_or_lt_of_le h with rfl | h2
    · simp
    · rw [if_neg (not_le.mpr h2), min_eq_right h]

/-- Python `Decimal.to_integral_value(rounding=ROUND_UP)`: rounding away
from zero, i.e. ceiling for non-negative arguments and floor for negative
ones. -/
def decRoundUp (x : ℚ) : ℤ :=
  if 0 ≤ x then ⌈x⌉ else ⌊x⌋

/-- `ceil_penny(amount)` from `chase_watch.py`: round up (away from zero)
to the next penny: `(amount * 100).to_integral_value(ROUND_UP) / 100`. -/
def ceil_penny (amount : ℚ) : ℚ :=
  (decRoundUp (amount * 100) : ℚ) / 100

/-- `calculate_next_stake(prev_stake, leg, next_odds, acc_losses, balance)`
from `chase_watch.py`.  `prev_stake` is `None` at leg 1 (Python
`Decimal(str(prev_stake)) if prev_stake else Decimal("0.01")` treats both
`None` and `0` as falsy, replacing them with `0.01`).  The Python float
literals `3` and `2.25` compared against the odds are exactly `3` and
`9/4`. -/
def calculate_next_stake (prev_stake : Option ℚ) (leg : ℤ)
    (next_odds acc_losses balance : ℚ) : ℚ :=
  let o := next_odds
  let ps : ℚ := match prev_stake with
    | some p => if p = 0 then MIN_STAKE else p
    | none => MIN_STAKE
  let losses := acc_losses
  let bal := balance
  if leg ≤ 1 then
    -- Leg 1: first bet
    let base := pyMin bal ACCOUNT_CAP
    let stake := ceil_penny (base * FIRST_BET_PERCENTAGE)
    pyMax stake MIN_STAKE
  else if leg = 6 then
    -- Leg 6: all-in (returned with no rounding and no minimum clamp)
    pyMin bal ACCOUNT_CAP
  else if leg = 2 ∨ leg = 3 ∨ leg = 4 ∨ leg = 5 then
    -- Legs 2-5: multipliers or short-odds recovery
    let stake :=
      if 3 ≤ o then ps * MULTIPLIER_HIGH
      else if 9 / 4 ≤ o then ps * MULTIPLIER_MED
      else if o - 1 ≤ 0 then MIN_STAKE
      else losses * PROFIT_BUFFER / (o - 1)
    pyMax (ceil_penny stake) MIN_STAKE
  else
    -- fallback (leg 0 or negative, or leg >= 7)
    pyMax (ceil_penny ps) MIN_STAKE

/-- Persisted chase state (`chase_state.json`).  Fields mirror the JSON
object written by `save_state`.  The `is_running_race` key is absent from
the record written by `daily_reset_job`; since every read goes through
`state.get("is_running_race", False)`, the absent key is modelled as the
value `false`. -/
structure ChaseState where
  balance : ℚ
  leg : ℤ
  accumulated_losses : ℚ
  prev_stake : Option ℚ
  chase_active : Bool
  is_running_race : Bool
  deriving DecidableEq

/-- Outcome of the external wager placement and settlement
(`place_chase_bet` together with `await_result`): either the call raises an
exception, or it settles reporting a win or a loss. -/
inductive BetResult where
  | raises
  | settles (win : Bool)
  deriving DecidableEq

/-- Terminal status of one run of `place_bet_job`, recording which `return`
path the job body took.  Skip paths return before any state write; the
`errorPlacing` path is the inner `except` around `place_chase_bet`; `done`
is the full run through settlement. -/
inductive JobStatus where
  | skippedCutoff
  | skippedBalance
  | skippedRunning
  | skippedNoOdds
  | errorPlacing (stake : ℚ)
  | done (stake : ℚ) (win : Bool) (profit : ℚ)
  deriving DecidableEq

/-- True exactly on the four skip statuses of `place_bet_job`. -/
def isSkip : JobStatus → Bool
  | .skippedCutoff => true
  | .skippedBalance => true
  | .skippedRunning => true
  | .skippedNoOdds => true
  | _ => false

/-- The stake `place_bet_job` computes for a loaded state and resolved
odds: `calculate_next_stake(ps, leg, odds, acc_losses, bal)`. -/
def nextStakeOf (st : ChaseState) (odds : ℚ) : ℚ :=
  calculate_next_stake st.prev_stake st.leg odds st.accumulated_losses st.balance

/-- `place_bet_job(client, market)` from `chase_watch.py`, as a function of
the inputs the job body reads: `afterCutoff` is the comparison
`now > cutoff`; `st` is the state loaded from `chase_state.json`;
`favOdds` is the result of `determine_fav_and_odds` (`none` when no
favourite is resolvable; Python also skips when the odds are falsy, i.e.
`0`); `bet` is the behaviour of the external wager placement/settlement.
The result is the terminal status together with the state persisted on
disk when the job terminates (skip paths never call `save_state`, so they
return the loaded state unchanged; the `errorPlacing` path returns after
the `is_running_race := true` snapshot was saved, without clearing it). -/
def place_bet_job (afterCutoff : Bool) (st : ChaseState) (favOdds : Option ℚ)
    (bet : BetResult) : JobStatus × ChaseState :=
  let leg := st.leg
  if afterCutoff = true ∧ leg = 1 then (.skippedCutoff, st)
  else
    let bal := st.balance
    if bal < MIN_STAKE then (.skippedBalance, st)
    else if st.is_running_race = true then (.skippedRunning, st)
    else
      match favOdds with
      | none => (.skippedNoOdds, st)
      | some odds =>
        if odds = 0 then (.skippedNoOdds, st)
        else
          let acc_losses := st.accumulated_losses
          let stake := nextStakeOf st odds
          -- mark race as running and persist
          let st1 := { st with is_running_race := true }
          match bet with
          | .raises =>
            -- inner except: log and return; st1 stays persisted
            (.errorPlacing stake, st1)
          | .settles win =>
            let profit := if win then (odds - 1) * stake else -stake
            let st2 :=
              if win then
                { st1 with accumulated_losses := 0, prev_stake := none,
                           chase_active := false, leg := 1 }
              else
                { st1 with accumulated_losses := acc_losses + stake,
                           prev_stake := some stake, leg := leg + 1 }
            let st3 := { st2 with balance := bal + profit, is_running_race := false }
            (.done stake win profit, st3)

/-- `daily_reset_job()` from `chase_watch.py`: unconditionally overwrites
the persisted state with a fresh record seeded from the configured initial
balance (`bank_balance.json`), ignoring the previous state.  The written
record carries no `is_running_race` key, which reads back as `false`. -/
def daily_reset_job (initialBalance : ℚ) (_prev : ChaseState) : ChaseState :=
  { balance := initialBalance
    leg := 1
    accumulated_losses := 0
    prev_stake := none
    chase_active := false
    is_running_race := false }

/-- Tests whether the first list of characters occurs at the start of the
second (character-by-character equality). -/
def listLeads : List Char → List Char → Bool
  | [], _ => true
  | _ :: _, [] => false
  | a :: as, b :: bs => a == b && listLeads as bs

/-- Python substring test `needle in hay` on strings: `needle` occurs
contiguously somewhere in `hay` (the empty needle occurs in every
string). -/
def subOf (needle hay : List Char) : Bool :=
  match hay with
  | [] => needle.isEmpty
  | _ :: t => listLeads needle hay || subOf needle t

/-- Python `a or b or ""` over two optional strings, where `None` and the
empty string are falsy: the first present non-empty string, else `""`. -/
def orEmpty (a b : Option String) : String :=
  let a1 := a.getD ""
  if a1 = "" then b.getD "" else a1

/-- One entry of the low-win denylist (`low_win_races.json`) or of the
list form of `track_grades.json`: a JSON object read via
`row.get("skip", False)`, `row.get("event_name")`, `row.get("race_name")`,
`row.get("track")`, `row.get("venue")`.  Absent keys are `none`.
(Entries of the low-win list that are not objects are ignored by the
`isinstance(row, dict)` guard and are not modelled.) -/
structure SkipRow where
  event_name : Option String
  race_name : Option String
  track : Option String
  venue : Option String
  skip : Bool

/-- Value of one `track_grades` mapping entry: an object (whose
`skip` flag is read with default `False`), a bare boolean, or any other
JSON value (which never matches). -/
inductive GradeVal where
  | obj (skip : Bool)
  | boolVal (b : Bool)
  | other

/-- The `track_grades.json` payload: the code handles a mapping form, a
list form, and treats any other shape as matching nothing. -/
inductive TrackGrades where
  | dict (entries : List (String × GradeVal))
  | list (rows : List SkipRow)
  | other

/-- Loop body of the low-win section of `should_skip`: the entry is
flagged skip, and either its (stripped) event name is non-empty and equals
the candidate event name, or its (stripped, lowered) track text is
non-empty and is a substring of the candidate track name. -/
def lowWinMatch (en tn : String) (row : SkipRow) : Bool :=
  row.skip &&
    (let e := (orEmpty row.event_name row.race_name).trim
     let t := (orEmpty row.track row.venue).trim.toLower
     ((e != "") && (e == en)) || ((t != "") && subOf t.toList tn.toList))

/-- Skip flag carried by a `track_grades` mapping value: objects are read
with `tg.get("skip", False)`, bare booleans stand for themselves, any
other value never skips. -/
def gradeValSkip : GradeVal → Bool
  | .obj s => s
  | .boolVal b => b
  | .other => false

/-- Loop body of the `track_grades` mapping section of `should_skip`:
the key is non-empty, its stripped lowered form is a substring of the
candidate track name, and the value is an object flagged skip or the
boolean `True`. -/
def gradeDictMatch (tn : String) (k : String) (v : GradeVal) : Bool :=
  (k != "") && subOf (k.trim.toLower).toList tn.toList && gradeValSkip v

/-- Loop body of the `track_grades` list section of `should_skip`: the
(stripped, lowered) track text is non-empty, is a substring of the
candidate track name, and the row is flagged skip. -/
def gradeListMatch (tn : String) (row : SkipRow) : Bool :=
  let t := (orEmpty row.track row.venue).trim.toLower
  (t != "") && subOf t.toList tn.toList && row.skip

/-- `should_skip(event_name, track_name, low_win_list, track_grades)` from
`chase_watch.py`.  The candidate event name is stripped; the candidate
track name is stripped and lowered.  The low-win denylist is checked
first, then the track grades in whichever of the two supported shapes they
take. -/
def should_skip (event_name track_name : Option String)
    (low_win_list : List SkipRow) (track_grades : TrackGrades) : Bool :=
  let en := (event_name.getD "").trim
  let tn := (track_name.getD "").trim.toLower
  low_win_list.any (lowWinMatch en tn) ||
    (match track_grades with
     | .dict entries => entries.any fun kv => gradeDictMatch tn kv.1 kv.2
     | .list rows => rows.any (gradeListMatch tn)
     | .other => false)

end ChaseWatch

namespace SafeApi

/-- Loop of `safe_api_call` from `safe_api.py`.  `func k` is the outcome
of the k-th call of the wrapped function (`none` models an exception,
`some v` a normal return).  `attempt` is the current 1-based attempt
number, `remaining` the number of loop iterations left
(`retries - attempt + 1`), `delay` the current backoff delay.  Returns
the final result (`none` models the implicit `return None` after
exhaustion — the wrapper itself never raises), the list of attempt numbers
actually made, and the list of delays slept (the last, failed attempt
sleeps nothing). -/
def safe_api_loop {α : Type} (func : ℕ → Option α) (attempt : ℕ)
    (remaining : ℕ) (delay : ℚ) : Option α × List ℕ × List ℚ :=
  match remaining with
  | 0 => (none, [], [])
  | r + 1 =>
    match func attempt with
    | some v => (some v, [attempt], [])
    | none =>
      if r = 0 then (none, [attempt], [])
      else
        let rest := safe_api_loop func (attempt + 1) r (delay * 2)
        (rest.1, attempt :: rest.2.1, delay :: rest.2.2)

/-- `safe_api_call(func, retries=3, delay=2)` from `safe_api.py`:
attempts 1, 2, ..., `retries`, sleeping and doubling the delay after each
failed non-final attempt, returning `None` after the final failure. -/
def safe_api_call {α : Type} (func : ℕ → Option α) (retries : ℕ)
    (delay : ℚ) : Option α × List ℕ × List ℚ :=
  safe_api_loop func 1 retries delay

end SafeApi

open ChaseWatch in
example : calculate_next_stake none 1 2 0 200 = 8 := by
  norm_num [calculate_next_stake, ceil_penny, decRoundUp, pyMax, pyMin,
    MIN_STAKE, FIRST_BET_PERCENTAGE, ACCOUNT_CAP, Int.ceil_eq_iff]

open ChaseWatch in
example : calculate_next_stake (some 8) 2 (16/5) 0 200 = 12 := by
  norm_num [calculate_next_stake, ceil_penny, decRoundUp, pyMax, pyMin,
    MIN_STAKE, MULTIPLIER_HIGH, Int.ceil_eq_iff]

open ChaseWatch in
example : calculate_next_stake (some 12) 3 2 20 200 = 24 := by
  norm_num [calculate_next_stake, ceil_penny, decRoundUp, pyMax, pyMin,
    MIN_STAKE, PROFIT_BUFFER, Int.ceil_eq_iff]

open ChaseWatch in
example : calculate_next_stake none 6 2 0 340 = 340 := by
  norm_num [calculate_next_stake, pyMin, ACCOUNT_CAP]

namespace ChaseWatch

theorem pennyFloor_spec (x : ℚ) :
    MIN_STAKE ≤ pyMax (ceil_penny x) MIN_STAKE ∧
    (pyMax (ceil_penny x) MIN_STAKE * 100).den = 1 := by
  rw [pyMax_eq_max]
  refine ⟨le_max_right _ _, ?_⟩
  have h : max (ceil_penny x) MIN_STAKE * 100 =
      ((max (decRoundUp (x * 100)) 1 : ℤ) : ℚ) := by
    unfold ceil_penny MIN_STAKE
    rw [max_mul_of_nonneg _ _ (by norm_num : (0:ℚ) ≤ 100),
      div_mul_cancel₀ _ (by norm_num : (100:ℚ) ≠ 0),
      div_mul_cancel₀ _ (by norm_num : (100:ℚ) ≠ 0), Int.cast_max, Int.cast_one]
  rw [h, Rat.den_intCast]

/-- C4 (amended): for every leg other than 6, the stake returned by
`calculate_next_stake` is at least the minimum unit 0.01 and is a whole
number of pennies (its value times 100 is an integer), obtained by
rounding up to the penny.  (At leg 6 the stake is `min(balance, 5000)`
with no rounding and no minimum clamp, which is what the counterexample
exhibits.) -/
theorem calculate_next_stake_min_whole_pennies (ps : Option ℚ) (leg : ℤ)
    (o L b : ℚ) (hleg : leg ≠ 6) :
    MIN_STAKE ≤ calculate_next_stake ps leg o L b ∧
    (calculate_next_stake ps leg o L b * 100).den = 1 := by
  simp only [calculate_next_stake]
  split_ifs with h1 h2 <;> first
    | exact absurd h2 hleg
    | exact pennyFloor_spec _

theorem calculate_next_stake_min_whole_pennies_witness :
    MIN_STAKE ≤ calculate_next_stake none 1 2 0 200 ∧
    (calculate_next_stake none 1 2 0 200 * 100).den = 1 :=
  calculate_next_stake_min_whole_pennies none 1 2 0 200 (by decide)

/-- C4 counterexample: at leg 6 with balance 0.005 the code returns the
stake 0.005 = `min(balance, 5000)` directly, below the minimum unit 0.01,
so the claim fails for leg 6. -/
theorem calculate_next_stake_leg6_cex :
    ¬ MIN_STAKE ≤ calculate_next_stake none 6 2 0 (1 / 200) := by
  norm_num [calculate_next_stake, pyMin, MIN_STAKE, ACCOUNT_CAP]

/-- C2 (amended): for every leg in {2,3,4,5} and every nonzero prev_stake
(the code coerces a missing or zero prev_stake to 0.01 before applying the
multipliers), calculate_next_stake returns ceil_penny(prev_stake * 1.50)
when odds >= 3.0; ceil_penny(prev_stake * 1.65) when 2.25 <= odds < 3.0;
ceil_penny(accumulated_losses * 1.20 / (odds - 1)) when 1 < odds < 2.25;
and exactly the minimum unit 0.01 when odds <= 1 (the division by
odds - 1 is never performed there); in all cases floored at 0.01. -/
theorem calculate_next_stake_legs2to5 (leg : ℤ)
    (hleg : leg = 2 ∨ leg = 3 ∨ leg = 4 ∨ leg = 5) (p : ℚ) (hp : ¬ p = 0)
    (o L b : ℚ) :
    (3 ≤ o → calculate_next_stake (some p) leg o L b =
      pyMax (ceil_penny (p * MULTIPLIER_HIGH)) MIN_STAKE) ∧
    (9 / 4 ≤ o → o < 3 → calculate_next_stake (some p) leg o L b =
      pyMax (ceil_penny (p * MULTIPLIER_MED)) MIN_STAKE) ∧
    (1 < o → o < 9 / 4 → calculate_next_stake (some p) leg o L b =
      pyMax (ceil_penny (L * PROFIT_BUFFER / (o - 1))) MIN_STAKE) ∧
    (o ≤ 1 → calculate_next_stake (some p) leg o L b = MIN_STAKE) := by
  have hn1 : ¬ leg ≤ 1 := by omega
  have hn6 : ¬ leg = 6 := by omega
  refine ⟨fun h3 => ?_, fun h2 hlt3 => ?_, fun hgt1 hlt => ?_, fun hle1 => ?_⟩
  all_goals
    simp only [calculate_next_stake, if_neg hn1, if_neg hn6, if_pos hleg,
      if_neg hp]
  · rw [if_pos h3]
  · rw [if_neg (not_le.mpr hlt3), if_pos h2]
  · rw [if_neg (by linarith : ¬ (3:ℚ) ≤ o),
      if_neg (not_le.mpr hlt), if_neg (by linarith : ¬ o - 1 ≤ 0)]
  · rw [if_neg (by linarith : ¬ (3:ℚ) ≤ o),
      if_neg (by linarith : ¬ (9:ℚ) / 4 ≤ o),
      if_pos (by linarith : o - 1 ≤ 0)]
    norm_num [pyMax, ceil_penny, decRoundUp, MIN_STAKE, Int.ceil_eq_iff]

theorem calculate_next_stake_legs2to5_witness :
    calculate_next_stake (some 8) 2 (16 / 5) 0 200 =
      pyMax (ceil_penny (8 * MULTIPLIER_HIGH)) MIN_STAKE :=
  (calculate_next_stake_legs2to5 2 (Or.inl rfl) 8 (by norm_num)
    (16 / 5) 0 200).1 (by norm_num)

/-- C2 counterexample: at leg 2 with prev_stake = 0 and odds 3.0 the code
coerces the falsy prev_stake to 0.01 and returns
ceil_penny(0.01 * 1.50) = 0.02, while the claimed formula
max(ceil_penny(0 * 1.50), 0.01) gives 0.01; the claim fails for
prev_stake = 0. -/
theorem calculate_next_stake_zero_prev_cex :
    calculate_next_stake (some 0) 2 3 0 100 ≠
      pyMax (ceil_penny (0 * MULTIPLIER_HIGH)) MIN_STAKE := by
  have h : (⌈(3:ℚ) / 2⌉ : ℤ) = 2 := by norm_num [Int.ceil_eq_iff]
  norm_num [calculate_next_stake, pyMax, ceil_penny, decRoundUp, MIN_STAKE,
    MULTIPLIER_HIGH, h, Int.ceil_eq_iff]

theorem leg1_ceil_bounds (b : ℚ) (hb : MIN_STAKE ≤ b) :
    MIN_STAKE ≤ ceil_penny (pyMin b ACCOUNT_CAP * FIRST_BET_PERCENTAGE) ∧
    ceil_penny (pyMin b ACCOUNT_CAP * FIRST_BET_PERCENTAGE) ≤ b := by
  rw [pyMin_eq_min]
  have hb0 : (1:ℚ) / 100 ≤ b := hb
  have hmlb : (1:ℚ) / 100 ≤ min b ACCOUNT_CAP :=
    le_min hb0 (by norm_num [ACCOUNT_CAP])
  have harg : min b ACCOUNT_CAP * FIRST_BET_PERCENTAGE * 100 =
      4 * min b ACCOUNT_CAP := by
    unfold FIRST_BET_PERCENTAGE; ring
  have hpos : (0:ℚ) < 4 * min b ACCOUNT_CAP := by linarith
  have hcp : ceil_penny (min b ACCOUNT_CAP * FIRST_BET_PERCENTAGE) =
      ((⌈4 * min b ACCOUNT_CAP⌉ : ℤ) : ℚ) / 100 := by
    unfold ceil_penny decRoundUp
    rw [harg, if_pos (le_of_lt hpos)]
  have hz1 : (1 : ℤ) ≤ ⌈4 * min b ACCOUNT_CAP⌉ := Int.ceil_pos.mpr hpos
  constructor
  · rw [hcp]
    unfold MIN_STAKE
    have h1 : (1 : ℚ) ≤ ((⌈4 * min b ACCOUNT_CAP⌉ : ℤ) : ℚ) := by
      exact_mod_cast hz1
    linarith
  · rw [hcp, div_le_iff₀ (by norm_num : (0:ℚ) < 100)]
    rcases le_or_lt b ACCOUNT_CAP with hc | hc
    · rw [min_eq_left hc]
      rcases le_or_lt (1 / 96 : ℚ) b with h96 | h96
      · have hlt : (⌈4 * b⌉ : ℚ) < 4 * b + 1 := Int.ceil_lt_add_one _
        linarith
      · have hceil : ⌈4 * b⌉ = 1 := by
          rw [Int.ceil_eq_iff]
          push_cast
          constructor <;> linarith
        rw [hceil]
        push_cast
        linarith
    · rw [min_eq_right (le_of_lt hc)]
      have hcap : (4 : ℚ) * ACCOUNT_CAP = ((20000 : ℤ) : ℚ) := by
        norm_num [ACCOUNT_CAP]
      rw [hcap, Int.ceil_intCast]
      push_cast
      norm_num [ACCOUNT_CAP] at hc ⊢
      linarith

/-- C5 (amended): for every balance of at least the minimum unit 0.01 (the
job runner skips smaller balances before calling the calculator) and every
odds, the stake returned by `calculate_next_stake` at leg 1 lies in the
interval [0.01, ceil_penny(min(balance, 5000) * 0.04)] and never exceeds
the balance.  (For balances strictly between 0 and 0.01 the clamp to the
minimum unit makes the stake exceed the balance, which is what the
counterexample exhibits.) -/
theorem calculate_next_stake_leg1_bounds (ps : Option ℚ) (o L b : ℚ)
    (hb : MIN_STAKE ≤ b) :
    MIN_STAKE ≤ calculate_next_stake ps 1 o L b ∧
    calculate_next_stake ps 1 o L b ≤
      ceil_penny (pyMin b ACCOUNT_CAP * FIRST_BET_PERCENTAGE) ∧
    calculate_next_stake ps 1 o L b ≤ b := by
  obtain ⟨hlo, hhi⟩ := leg1_ceil_bounds b hb
  have hcalc : calculate_next_stake ps 1 o L b =
      ceil_penny (pyMin b ACCOUNT_CAP * FIRST_BET_PERCENTAGE) := by
    simp only [calculate_next_stake, if_pos (le_refl (1:ℤ))]
    rw [pyMax_eq_max, max_eq_left hlo]
  rw [hcalc]
  exact ⟨hlo, le_refl _, hhi⟩

theorem calculate_next_stake_leg1_bounds_witness :
    MIN_STAKE ≤ calculate_next_stake none 1 2 0 200 ∧
    calculate_next_stake none 1 2 0 200 ≤
      ceil_penny (pyMin 200 ACCOUNT_CAP * FIRST_BET_PERCENTAGE) ∧
    calculate_next_stake none 1 2 0 200 ≤ 200 :=
  calculate_next_stake_leg1_bounds none 2 0 200 (by norm_num [MIN_STAKE])

/-- C5 counterexample: at leg 1 with balance 0.005 the code returns the
minimum stake 0.01, which exceeds the balance, so the claim "never exceeds
the balance" fails for balances below the minimum unit. -/
theorem calculate_next_stake_leg1_exceeds_tiny_balance :
    ¬ calculate_next_stake none 1 2 0 (1 / 200) ≤ 1 / 200 := by
  have h : (⌈(1:ℚ) / 50⌉ : ℤ) = 1 := by norm_num [Int.ceil_eq_iff]
  norm_num [calculate_next_stake, pyMax, pyMin, ceil_penny, decRoundUp,
    MIN_STAKE, ACCOUNT_CAP, FIRST_BET_PERCENTAGE, h]

/-- C1: a run of `place_bet_job` in which the external wager placement
raises after the `is_running_race := true` snapshot was persisted
terminates (status `errorPlacing`) with `is_running_race` still `true` in
the persisted state: the inner `except` around `place_chase_bet` logs and
returns without clearing the flag, contradicting the claim that every
terminal status leaves the flag false.  Concretely: balance 100, leg 1,
before the cutoff, favourite at odds 2.0, wager placement raises. -/
theorem place_bet_job_error_leaves_flag_set :
    ((place_bet_job false ⟨100, 1, 0, none, false, false⟩ (some 2)
        .raises).2).is_running_race = true ∧
    (place_bet_job false ⟨100, 1, 0, none, false, false⟩ (some 2)
        .raises).1 = .errorPlacing 4 := by
  have h4 : calculate_next_stake none 1 2 0 100 = 4 := by
    have h : (⌈(400:ℚ)⌉ : ℤ) = 400 := by norm_num [Int.ceil_eq_iff]
    norm_num [calculate_next_stake, pyMax, pyMin, ceil_penny, decRoundUp,
      MIN_STAKE, ACCOUNT_CAP, FIRST_BET_PERCENTAGE, h]
  norm_num [place_bet_job, nextStakeOf, MIN_STAKE, h4]

/-- C3: for every completed (non-skipped, non-error) run of
`place_bet_job`: on a win the persisted state has leg 1, zero accumulated
losses, no prev_stake, chase_active false, and the balance increased by
(odds - 1) * stake; on a loss the accumulated losses increase by exactly
the stake, prev_stake becomes the stake, the leg increases by exactly 1,
and the balance decreases by the stake. -/
theorem place_bet_job_settles_update (ac : Bool) (st : ChaseState) (o : ℚ)
    (win : Bool) (hc : ¬ (ac = true ∧ st.leg = 1))
    (hb : ¬ st.balance < MIN_STAKE) (hr : st.is_running_race = false)
    (ho : ¬ o = 0) :
    place_bet_job ac st (some o) (.settles win) =
      (.done (nextStakeOf st o) win
         (if win then (o - 1) * nextStakeOf st o else -(nextStakeOf st o)),
       if win then
         { balance := st.balance + (o - 1) * nextStakeOf st o, leg := 1,
           accumulated_losses := 0, prev_stake := none,
           chase_active := false, is_running_race := false }
       else
         { balance := st.balance - nextStakeOf st o, leg := st.leg + 1,
           accumulated_losses := st.accumulated_losses + nextStakeOf st o,
           prev_stake := some (nextStakeOf st o),
           chase_active := st.chase_active, is_running_race := false }) := by
  have hr2 : ¬ st.is_running_race = true := by simp [hr]
  cases win <;>
    simp [place_bet_job, nextStakeOf, hc, hb, hr2, ho, sub_eq_add_neg]

theorem place_bet_job_settles_update_witness :
    place_bet_job false ⟨100, 1, 0, none, false, false⟩ (some 2)
        (.settles true) =
      (.done 4 true 4, ⟨104, 1, 0, none, false, false⟩) := by
  have h4 : calculate_next_stake none 1 2 0 100 = 4 := by
    have h : (⌈(400:ℚ)⌉ : ℤ) = 400 := by norm_num [Int.ceil_eq_iff]
    norm_num [calculate_next_stake, pyMax, pyMin, ceil_penny, decRoundUp,
      MIN_STAKE, ACCOUNT_CAP, FIRST_BET_PERCENTAGE, h]
  have hmain := place_bet_job_settles_update false
    ⟨100, 1, 0, none, false, false⟩ 2 true (by simp)
    (by norm_num [MIN_STAKE]) rfl (by norm_num)
  rw [hmain]
  norm_num [nextStakeOf, h4]

/-- C6: whenever `place_bet_job` takes any skip path the persisted state
is exactly the state the job loaded (no `save_state` call happens before
any skip `return`), and each of the four skip conditions — past the cutoff
with leg 1, balance below the minimum unit, `is_running_race` already set,
no favourite/odds resolvable (or odds 0) — individually forces a skip
status.  In the `is_running_race` case the skip happens before the stake
calculator is reached (skip statuses carry no stake). -/
theorem place_bet_job_skip_frame (ac : Bool) (st : ChaseState)
    (fo : Option ℚ) (bet : BetResult) :
    (isSkip (place_bet_job ac st fo bet).1 = true →
      (place_bet_job ac st fo bet).2 = st) ∧
    (ac = true ∧ st.leg = 1 → isSkip (place_bet_job ac st fo bet).1 = true) ∧
    (st.balance < MIN_STAKE → isSkip (place_bet_job ac st fo bet).1 = true) ∧
    (st.is_running_race = true →
      isSkip (place_bet_job ac st fo bet).1 = true) ∧
    ((fo = none ∨ fo = some 0) →
      isSkip (place_bet_job ac st fo bet).1 = true) := by
  by_cases h1 : ac = true ∧ st.leg = 1
  · simp [place_bet_job, h1, isSkip]
  · by_cases h2 : st.balance < MIN_STAKE
    · simp [place_bet_job, h1, h2, isSkip]
    · by_cases h3 : st.is_running_race = true
      · simp [place_bet_job, h1, h2, h3, isSkip]
      · cases fo with
        | none => simp [place_bet_job, h1, h2, h3, isSkip]
        | some o =>
          by_cases h4 : o = 0
          · simp [place_bet_job, h1, h2, h3, h4, isSkip]
          · cases bet with
            | raises => simp [place_bet_job, h1, h2, h3, h4, isSkip]
            | settles win => simp [place_bet_job, h1, h2, h3, h4, isSkip]

theorem place_bet_job_skip_frame_witness :
    ((place_bet_job false ⟨100, 1, 0, none, false, true⟩ (some 2)
        .raises).2 = ⟨100, 1, 0, none, false, true⟩) ∧
    isSkip (place_bet_job false ⟨100, 1, 0, none, false, true⟩ (some 2)
        .raises).1 = true := by
  have h := place_bet_job_skip_frame false ⟨100, 1, 0, none, false, true⟩
    (some 2) .raises
  exact ⟨h.1 (h.2.2.2.1 rfl), h.2.2.2.1 rfl⟩

/-- C7: the daily reset is idempotent — running `daily_reset_job` twice
with the same configured initial balance persists exactly the state a
single run persists — and after any run the state reads back with leg 1,
zero accumulated losses, no prev_stake, chase_active false,
is_running_race false, and the balance re-seeded from the configured
initial balance regardless of the previous state. -/
theorem daily_reset_job_idempotent (init : ℚ) (s : ChaseState) :
    daily_reset_job init (daily_reset_job init s) = daily_reset_job init s ∧
    (daily_reset_job init s).leg = 1 ∧
    (daily_reset_job init s).accumulated_losses = 0 ∧
    (daily_reset_job init s).prev_stake = none ∧
    (daily_reset_job init s).chase_active = false ∧
    (daily_reset_job init s).is_running_race = false ∧
    (daily_reset_job init s).balance = init := by
  simp [daily_reset_job]

/-- C10: the chase does not end at the final leg — a loss on leg 6
advances the persisted state to leg 7, and for every leg at least 7 (with
the nonzero prev_stake every such run carries) `calculate_next_stake`
falls through to `max(ceil_penny(prev_stake), 0.01)`, repeating the
previous stake rounded up to the penny rather than resetting or going
all-in. -/
theorem chase_beyond_final_leg (leg : ℤ) (hleg : 7 ≤ leg) (p : ℚ)
    (hp : ¬ p = 0) (o L b : ℚ) (st : ChaseState) (h6 : st.leg = 6)
    (hb : ¬ st.balance < MIN_STAKE) (hr : st.is_running_race = false)
    (o2 : ℚ) (ho : ¬ o2 = 0) :
    calculate_next_stake (some p) leg o L b =
      pyMax (ceil_penny p) MIN_STAKE ∧
    ((place_bet_job false st (some o2) (.settles false)).2).leg = 7 := by
  constructor
  · have hn1 : ¬ leg ≤ 1 := by omega
    have hn6 : ¬ leg = 6 := by omega
    have hn25 : ¬ (leg = 2 ∨ leg = 3 ∨ leg = 4 ∨ leg = 5) := by omega
    simp only [calculate_next_stake, if_neg hn1, if_neg hn6, if_neg hn25,
      if_neg hp]
  · have hc : ¬ (false = true ∧ st.leg = 1) := by simp
    have hr2 : ¬ st.is_running_race = true := by simp [hr]
    simp [place_bet_job, hc, hb, hr2, ho, h6]

theorem chase_beyond_final_leg_witness :
    calculate_next_stake (some 5) 7 2 0 100 =
      pyMax (ceil_penny 5) MIN_STAKE ∧
    ((place_bet_job false ⟨100, 6, 20, some 5, true, false⟩ (some 2)
        (.settles false)).2).leg = 7 :=
  chase_beyond_final_leg 7 (by norm_num) 5 (by norm_num) 2 0 100
    ⟨100, 6, 20, some 5, true, false⟩ rfl (by norm_num [MIN_STAKE]) rfl
    2 (by norm_num)

end ChaseWatch

namespace SafeApi

theorem safe_api_loop_all_fail {α : Type} (func : ℕ → Option α) (r : ℕ) :
    ∀ (a : ℕ) (δ : ℚ), (∀ k, a ≤ k → k < a + r → func k = none) →
    safe_api_loop func a r δ =
      (none, (List.range r).map (fun i => a + i),
       (List.range (r - 1)).map (fun i => δ * 2 ^ i)) := by
  induction r with
  | zero =>
    intro a δ _
    simp [safe_api_loop]
  | succ r ih =>
    intro a δ h
    have ha : func a = none := h a (le_refl a) (by omega)
    by_cases hr : r = 0
    · subst hr
      simp [safe_api_loop, ha, List.range_succ]
    · obtain ⟨s, rfl⟩ : ∃ s, r = s + 1 := ⟨r - 1, by omega⟩
      have hih := ih (a + 1) (δ * 2)
        (fun k hk1 hk2 => h k (by omega) (by omega))
      have step : safe_api_loop func a (s + 1 + 1) δ =
          ((safe_api_loop func (a + 1) (s + 1) (δ * 2)).1,
           a :: (safe_api_loop func (a + 1) (s + 1) (δ * 2)).2.1,
           δ :: (safe_api_loop func (a + 1) (s + 1) (δ * 2)).2.2) := by
        simp only [safe_api_loop, ha, if_neg hr]
      rw [step, hih]
      have htried : (List.range (s + 1 + 1)).map (fun i => a + i) =
          a :: (List.range (s + 1)).map (fun i => a + 1 + i) := by
        rw [List.range_succ_eq_map]
        simp only [List.map_cons, List.map_map, Function.comp_def, Nat.add_zero]
        have hfun : (fun i => a + (i + 1)) = fun i => a + 1 + i := by
          funext i; omega
        rw [hfun]
      have hsleeps : (List.range (s + 1 + 1 - 1)).map (fun i => δ * 2 ^ i) =
          δ :: (List.range (s + 1 - 1)).map (fun i => δ * 2 * 2 ^ i) := by
        simp only [Nat.add_sub_cancel]
        rw [List.range_succ_eq_map]
        simp only [List.map_cons, List.map_map, Function.comp_def, pow_zero,
          mul_one]
        have hfun : (fun i => δ * 2 ^ (i + 1)) = fun i => δ * 2 * 2 ^ i := by
          funext i
          rw [pow_succ]
          ring
        rw [hfun]
      rw [htried, hsleeps]

theorem safe_api_loop_first_success {α : Type} (func : ℕ → Option α)
    (r : ℕ) : ∀ (a : ℕ) (δ : ℚ) (k : ℕ) (v : α), a ≤ k → k < a + r →
    func k = some v → (∀ j, a ≤ j → j < k → func j = none) →
    (safe_api_loop func a r δ).1 = some v := by
  induction r with
  | zero =>
    intro a δ k v h1 h2 _ _
    omega
  | succ r ih =>
    intro a δ k v hak hkr hk hj
    by_cases hka : k = a
    · subst hka
      simp [safe_api_loop, hk]
    · have ha : func a = none := hj a (le_refl a) (by omega)
      have hr0 : ¬ r = 0 := by omega
      simp only [safe_api_loop, ha, if_neg hr0]
      exact ih (a + 1) (δ * 2) k v (by omega) (by omega) hk
        (fun j hj1 hj2 => hj j (by omega) hj2)

theorem safe_api_loop_length {α : Type} (func : ℕ → Option α) (r : ℕ) :
    ∀ (a : ℕ) (δ : ℚ), (safe_api_loop func a r δ).2.1.length ≤ r := by
  induction r with
  | zero =>
    intro a δ
    simp [safe_api_loop]
  | succ r ih =>
    intro a δ
    cases hf : func a with
    | some v => simp [safe_api_loop, hf]
    | none =>
      by_cases hr : r = 0
      · subst hr
        simp [safe_api_loop, hf]
      · simp only [safe_api_loop, hf, if_neg hr, List.length_cons]
        have := ih (a + 1) (δ * 2)
        omega

/-- C9: for every wrapped function (modelled by the outcome of its k-th
call, `none` for an exception) and retry count: if some attempt succeeds
after only failed earlier attempts, `safe_api_call` returns that attempt's
result; if every attempt up to `retries` fails, it returns the sentinel
`none` (never propagating the exception), having made exactly the
attempts 1..retries and slept the delays delay, 2*delay, ... after each
failed non-final attempt (`retries - 1` sleeps, doubling each time); and
in every case it makes at most `retries` attempts. -/
theorem safe_api_call_spec {α : Type} (func : ℕ → Option α) (retries : ℕ)
    (delay : ℚ) :
    (∀ k v, 1 ≤ k → k ≤ retries → func k = some v →
      (∀ j, 1 ≤ j → j < k → func j = none) →
      (safe_api_call func retries delay).1 = some v) ∧
    ((∀ k, 1 ≤ k → k ≤ retries → func k = none) →
      safe_api_call func retries delay =
        (none, (List.range retries).map (fun i => 1 + i),
         (List.range (retries - 1)).map (fun i => delay * 2 ^ i))) ∧
    (safe_api_call func retries delay).2.1.length ≤ retries := by
  refine ⟨?_, ?_, ?_⟩
  · intro k v h1 h2 hk hj
    exact safe_api_loop_first_success func retries 1 delay k v h1 (by omega)
      hk (fun j hj1 hj2 => hj j hj1 hj2)
  · intro h
    exact safe_api_loop_all_fail func retries 1 delay
      (fun k h1 h2 => h k h1 (by omega))
  · exact safe_api_loop_length func retries 1 delay

theorem safe_api_call_spec_witness :
    safe_api_call (fun _ => (none : Option ℕ)) 3 2 =
      (none, [1, 2, 3], [2, 4]) := by
  have h := (safe_api_call_spec (fun _ => (none : Option ℕ)) 3 2).2.1
    (fun k h1 h2 => rfl)
  rw [h]
  norm_num [List.range_succ]

end SafeApi

namespace ChaseWatch

/-- C8: `should_skip` returns true exactly when some rule matches with
its skip flag set: a denylist entry matches when its stripped event name
is non-empty and equals the stripped candidate event name exactly, or its
stripped lowered track text is non-empty and occurs as a substring of the
stripped lowered candidate track name (case-insensitive substring
matching for tracks, exact matching for event names); a grade rule — in
mapping form or in list form — matches by case-insensitive substring on
the track name with its skip flag set; when no entry matches,
`should_skip` returns false. -/
theorem should_skip_iff (event_name track_name : Option String)
    (low_win_list : List SkipRow) (track_grades : TrackGrades) :
    should_skip event_name track_name low_win_list track_grades = true ↔
      ((∃ row ∈ low_win_list, row.skip = true ∧
          (((orEmpty row.event_name row.race_name).trim ≠ "" ∧
            (orEmpty row.event_name row.race_name).trim =
              (event_name.getD "").trim) ∨
           ((orEmpty row.track row.venue).trim.toLower ≠ "" ∧
            subOf (orEmpty row.track row.venue).trim.toLower.toList
              (track_name.getD "").trim.toLower.toList = true))) ∨
       (∃ entries, track_grades = .dict entries ∧ ∃ kv ∈ entries,
          kv.1 ≠ "" ∧
          subOf kv.1.trim.toLower.toList
            (track_name.getD "").trim.toLower.toList = true ∧
          gradeValSkip kv.2 = true) ∨
       (∃ rows, track_grades = .list rows ∧ ∃ row ∈ rows,
          (orEmpty row.track row.venue).trim.toLower ≠ "" ∧
          subOf (orEmpty row.track row.venue).trim.toLower.toList
            (track_name.getD "").trim.toLower.toList = true ∧
          row.skip = true)) := by
  cases track_grades with
  | dict entries =>
    simp [should_skip, lowWinMatch, gradeDictMatch, List.any_eq_true,
      Bool.and_eq_true, Bool.or_eq_true, bne_iff_ne, beq_iff_eq, and_assoc]
  | list rows =>
    simp [should_skip, lowWinMatch, gradeListMatch, List.any_eq_true,
      Bool.and_eq_true, Bool.or_eq_true, bne_iff_ne, beq_iff_eq, and_assoc]
  | other =>
    simp [should_skip, lowWinMatch, List.any_eq_true,
      Bool.and_eq_true, Bool.or_eq_true, bne_iff_ne, beq_iff_eq, and_assoc]

end ChaseWatch
